import Mathlib

/-!
# Verification of `libs/hwui/AmbientShadow.cpp`

A shallow embedding of the ambient-shadow tessellation pipeline from
`AmbientShadow.cpp` (namespace `android::uirenderer`), together with proofs of
the specified properties.

Modelling conventions:
* C++ `float` arithmetic is embedded as exact real arithmetic (`ℝ`).
* C++ arrays are embedded as `List`s indexed with `getD`.
* The three per-ray locals `edgeIndex`, `edgeFraction`, `rayDistance` in
  `createAmbientShadow` are declared uninitialized and are written by
  `calculateIntersection` only when some polygon edge is accepted.  Their
  indeterminate initial values are modelled by an explicit parameter
  `junk : ℕ → ℤ × ℝ × ℝ` giving, for each ray index, the values the caller
  observes when no edge is accepted.
* `SHADOW_RAY_COUNT` is defined in `ShadowTessellator.h`, outside this
  excerpt; the ray count is therefore kept as an explicit parameter `rays`,
  matching the local `const int rays` and the `rays <= 0` validity check.
-/

namespace AmbientShadow

attribute [local instance] Classical.propDecidable

/-- 2D vector, embedding `Vector2` from `Vertex.h` (fields `x`, `y`). -/
structure Vector2 where
  x : ℝ
  y : ℝ

/-- 3D vector, embedding `Vector3` (fields `x`, `y`, `z`). -/
structure Vector3 where
  x : ℝ
  y : ℝ
  z : ℝ

/-- Output vertex, embedding `AlphaVertex` (position plus alpha). -/
structure AlphaVertex where
  x : ℝ
  y : ℝ
  alpha : ℝ

instance : Inhabited Vector2 where
  default := ⟨0, 0⟩

instance : Inhabited Vector3 where
  default := ⟨0, 0, 0⟩

instance : Inhabited AlphaVertex where
  default := ⟨0, 0, 0⟩

/-- Embeds `VertexBufferMode`: `kVertexBufferMode_OnePolyRingShadow` and
`kVertexBufferMode_TwoPolyRingShadow`. -/
inductive VertexBufferMode where
  | onePolyRingShadow
  | twoPolyRingShadow
deriving DecidableEq

/-- Squared-root length of a 2D vector, embedding `Vector2::length()`. -/
noncomputable def Vector2.length (v : Vector2) : ℝ :=
  Real.sqrt (v.x * v.x + v.y * v.y)

/-- One ray direction, embedding the loop body of `calculateRayDirections`:
`deltaAngle = 2 * M_PI / rays`, `dir[i] = (sinf(deltaAngle * i), cosf(deltaAngle * i))`. -/
noncomputable def rayDirection (rays : ℤ) (i : ℕ) : Vector2 :=
  ⟨Real.sin (2 * Real.pi / (rays : ℝ) * (i : ℕ)), Real.cos (2 * Real.pi / (rays : ℝ) * (i : ℕ))⟩

/-- Embeds `AmbientShadow::calculateRayDirections`: fills `dir[0..rays)`. -/
noncomputable def calculateRayDirections (rays : ℤ) : List Vector2 :=
  (List.range rays.toNat).map (rayDirection rays)

/-- The index `p1` paired with loop index `p2` in `calculateIntersection`:
the search starts from the edge `poly[vertexCount - 1] -> poly[0]`, then
`p1 = p2` at the end of each iteration, so `p1 = p2 - 1` for `p2 > 0`. -/
def edgeFrom (vertexCount p2 : ℕ) : ℕ :=
  (p2 + vertexCount - 1) % vertexCount

/-- One iteration of the edge loop of `calculateIntersection` for the edge
from `vertices[p1i]` to `vertices[p2i]`: the determinant test `div != 0`, the
segment-parameter test `t > 0 && t <= 1`, the ray-parameter test `t2 > 0`, and
on acceptance the outputs `(outEdgeIndex, outEdgeFraction, outRayDist) = (p1, t, t2)`. -/
noncomputable def edgeHit (vertices : List Vector3) (start : Vector3) (dir : Vector2)
    (p1i p2i : ℕ) : Option (ℤ × ℝ × ℝ) :=
  let p1x := (vertices.getD p1i default).x
  let p1y := (vertices.getD p1i default).y
  let p2x := (vertices.getD p2i default).x
  let p2y := (vertices.getD p2i default).y
  let div := dir.x * (p1y - p2y) + dir.y * p2x - dir.y * p1x
  if div ≠ 0 then
    let t := (dir.x * (p1y - start.y) + dir.y * start.x - dir.y * p1x) / div
    if 0 < t ∧ t ≤ 1 then
      let t2 := (p1x * (start.y - p2y) + p2x * (p1y - start.y) + start.x * (p2y - p1y)) / div
      if 0 < t2 then some ((p1i : ℤ), t, t2) else none
    else none
  else none

/-- The edge loop of `calculateIntersection`, scanning `p2 = k, k+1, ...` with
`fuel` iterations left, returning the first accepted edge's outputs. -/
noncomputable def scanHit (vertices : List Vector3) (start : Vector3) (dir : Vector2)
    (n : ℕ) : ℕ → ℕ → Option (ℤ × ℝ × ℝ)
  | _, 0 => none
  | k, fuel + 1 =>
    match edgeHit vertices start dir (edgeFrom n k) k with
    | some r => some r
    | none => scanHit vertices start dir n (k + 1) fuel

/-- The result of the full edge scan of `calculateIntersection`
(`for (int p2 = 0; p2 < vertexCount; p2++)`), `none` when no edge is accepted. -/
noncomputable def findHit (vertices : List Vector3) (start : Vector3) (dir : Vector2) :
    Option (ℤ × ℝ × ℝ) :=
  scanHit vertices start dir vertices.length 0 vertices.length

/-- Embeds `AmbientShadow::calculateIntersection`.  The by-reference output
parameters are modelled by value passing: `outInit` holds the values of
`(outEdgeIndex, outEdgeFraction, outRayDist)` before the call, and the result
holds their values after it; the function writes them only when an edge is
accepted. -/
noncomputable def calculateIntersection (vertices : List Vector3) (start : Vector3)
    (dir : Vector2) (outInit : ℤ × ℝ × ℝ) : ℤ × ℝ × ℝ :=
  (findHit vertices start dir).getD outInit

/-- Embeds `AmbientShadow::calculateNormal`.  `normal` is the by-reference
parameter's value before the call; it is returned unchanged on the zero-length
chord, otherwise replaced by the CCW-rotated normalized chord between the
intersection points of the neighbouring rays. -/
noncomputable def calculateNormal (rays currentRayIndex : ℤ) (dir : List Vector2)
    (rayDist : List ℝ) (normal : Vector2) : Vector2 :=
  let preIndex := ((currentRayIndex - 1 + rays) % rays).toNat
  let postIndex := ((currentRayIndex + 1) % rays).toNat
  let p1x := (dir.getD preIndex default).x * rayDist.getD preIndex 0
  let p1y := (dir.getD preIndex default).y * rayDist.getD preIndex 0
  let p2x := (dir.getD postIndex default).x * rayDist.getD postIndex 0
  let p2y := (dir.getD postIndex default).y * rayDist.getD postIndex 0
  let deltaX := p2x - p1x
  let deltaY := p2y - p1y
  if Vector2.length ⟨deltaX, deltaY⟩ ≠ 0 then
    ⟨-(deltaY / Vector2.length ⟨deltaX, deltaY⟩), deltaX / Vector2.length ⟨deltaX, deltaY⟩⟩
  else
    normal

/-- Per-ray outputs of the `calculateIntersection` call at line 75 of
`createAmbientShadow`, with `junk i` the indeterminate initial values of the
uninitialized locals for ray `i`. -/
noncomputable def rayHit (vertices : List Vector3) (centroid3d : Vector3) (rays : ℤ)
    (junk : ℕ → ℤ × ℝ × ℝ) (i : ℕ) : ℤ × ℝ × ℝ :=
  calculateIntersection vertices centroid3d (rayDirection rays i) (junk i)

/-- The local `edgeIndex` right after the `calculateIntersection` call. -/
noncomputable def rayEdgeRaw (vertices : List Vector3) (centroid3d : Vector3) (rays : ℤ)
    (junk : ℕ → ℤ × ℝ × ℝ) (i : ℕ) : ℤ :=
  (rayHit vertices centroid3d rays junk i).1

/-- The local `edgeFraction` after the `calculateIntersection` call. -/
noncomputable def rayFraction (vertices : List Vector3) (centroid3d : Vector3) (rays : ℤ)
    (junk : ℕ → ℤ × ℝ × ℝ) (i : ℕ) : ℝ :=
  (rayHit vertices centroid3d rays junk i).2.1

/-- The stored distance `rayDist[i] = rayDistance` (line 77). -/
noncomputable def rayDist (vertices : List Vector3) (centroid3d : Vector3) (rays : ℤ)
    (junk : ℕ → ℤ × ℝ × ℝ) (i : ℕ) : ℝ :=
  (rayHit vertices centroid3d rays junk i).2.2

/-- The guard at lines 78-83: `if (edgeIndex < 0 || edgeIndex >= vertexCount) edgeIndex = 0`. -/
def clampedEdge (vertexCount : ℕ) (e : ℤ) : ℤ :=
  if e < 0 ∨ (vertexCount : ℤ) ≤ e then 0 else e

/-- The stored height `rayHeight[i] = h1 + edgeFraction * (h2 - h1)` (lines 84-86),
with `h1 = vertices[edgeIndex].z` and `h2 = vertices[(edgeIndex + 1) % vertexCount].z`
computed from the clamped edge index. -/
noncomputable def rayHeight (vertices : List Vector3) (centroid3d : Vector3) (rays : ℤ)
    (junk : ℕ → ℤ × ℝ × ℝ) (i : ℕ) : ℝ :=
  let e := (clampedEdge vertices.length (rayEdgeRaw vertices centroid3d rays junk i)).toNat
  let h1 := (vertices.getD e default).z
  let h2 := (vertices.getD ((e + 1) % vertices.length) default).z
  h1 + rayFraction vertices centroid3d rays junk i * (h2 - h1)

/-- The array `rayDist[0..rays)` as passed to `calculateNormal`. -/
noncomputable def rayDistList (vertices : List Vector3) (centroid3d : Vector3) (rays : ℤ)
    (junk : ℕ → ℤ × ℝ × ℝ) : List ℝ :=
  (List.range rays.toNat).map (rayDist vertices centroid3d rays junk)

/-- The normal for ray `rayIndex` (lines 103-104): `Vector2 normal(1.0f, 0.0f);
calculateNormal(rays, rayIndex, dir.array(), rayDist, normal)`. -/
noncomputable def normalAt (vertices : List Vector3) (centroid3d : Vector3) (rays : ℤ)
    (junk : ℕ → ℤ × ℝ × ℝ) (i : ℕ) : Vector2 :=
  calculateNormal rays (i : ℤ) (calculateRayDirections rays)
    (rayDistList vertices centroid3d rays junk) ⟨1, 0⟩

/-- The intersection point for ray `i` (lines 108-109):
`intersection = dir[rayIndex] * rayDist[rayIndex] + centroid2d`. -/
noncomputable def intersectionAt (vertices : List Vector3) (centroid3d : Vector3) (rays : ℤ)
    (junk : ℕ → ℤ × ℝ × ℝ) (i : ℕ) : Vector2 :=
  ⟨(rayDirection rays i).x * rayDist vertices centroid3d rays junk i + centroid3d.x,
   (rayDirection rays i).y * rayDist vertices centroid3d rays junk i + centroid3d.y⟩

/-- The outer-ring vertex written at index `rayIndex` (lines 112-117):
position `intersection + normal * expansionDist`, alpha `0`. -/
noncomputable def outerVertexAt (vertices : List Vector3) (centroid3d : Vector3)
    (heightFactor geomFactor : ℝ) (rays : ℤ) (junk : ℕ → ℤ × ℝ × ℝ) (i : ℕ) : AlphaVertex :=
  let normal := normalAt vertices centroid3d rays junk i
  let inter := intersectionAt vertices centroid3d rays junk i
  let expansionDist := rayHeight vertices centroid3d rays junk i * heightFactor * geomFactor
  ⟨inter.x + normal.x * expansionDist, inter.y + normal.y * expansionDist, 0⟩

/-- The inner-ring vertex written at index `rays + rayIndex` (lines 120-124):
position `intersection`, alpha `1 / (1 + rayHeight[rayIndex] * heightFactor)`. -/
noncomputable def innerVertexAt (vertices : List Vector3) (centroid3d : Vector3)
    (heightFactor : ℝ) (rays : ℤ) (junk : ℕ → ℤ × ℝ × ℝ) (i : ℕ) : AlphaVertex :=
  ⟨(intersectionAt vertices centroid3d rays junk i).x,
   (intersectionAt vertices centroid3d rays junk i).y,
   1 / (1 + rayHeight vertices centroid3d rays junk i * heightFactor)⟩

/-- The vertex `centroidXYA` stored into the whole third ring when the caster
is not opaque (lines 131-133). -/
noncomputable def centroidVertex (centroid3d : Vector3) (heightFactor : ℝ) : AlphaVertex :=
  ⟨centroid3d.x, centroid3d.y, 1 / (1 + centroid3d.z * heightFactor)⟩

/-- Embeds `AmbientShadow::createAmbientShadow`.  The returned list is the
sequence of `AlphaVertex` entries actually written into `shadowVertexBuffer`,
in buffer order: outer ring at `[0, rays)`, inner ring at `[rays, 2*rays)`,
and, for a non-opaque caster, the centroid ring at `[2*rays, 3*rays)`.  The
first component is the returned `VertexBufferMode`. -/
noncomputable def createAmbientShadow (isCasterOpaque : Bool) (vertices : List Vector3)
    (centroid3d : Vector3) (heightFactor geomFactor : ℝ) (rays : ℤ)
    (junk : ℕ → ℤ × ℝ × ℝ) : VertexBufferMode × List AlphaVertex :=
  if vertices.length < 3 ∨ heightFactor ≤ 0 ∨ rays ≤ 0 ∨ geomFactor ≤ 0 then
    (VertexBufferMode.onePolyRingShadow, [])
  else
    let n := rays.toNat
    let outer := (List.range n).map
      (outerVertexAt vertices centroid3d heightFactor geomFactor rays junk)
    let inner := (List.range n).map
      (innerVertexAt vertices centroid3d heightFactor rays junk)
    if isCasterOpaque then
      (VertexBufferMode.onePolyRingShadow, outer ++ inner)
    else
      (VertexBufferMode.twoPolyRingShadow,
        outer ++ inner ++ List.replicate n (centroidVertex centroid3d heightFactor))

end AmbientShadow

namespace AmbientShadow

/-! ### Concrete fixtures used by witnesses -/

/-- A triangle caster: base at height 0, apex `(0, 1)` at height 2. -/
def triA : List Vector3 := [⟨-1, -1, 0⟩, ⟨1, -1, 0⟩, ⟨0, 1, 2⟩]

/-- A centroid for `triA`, at height 2. -/
def centA : Vector3 := ⟨0, 0, 2⟩

/-- A fixed choice of indeterminate initial values for the per-ray locals. -/
def junk0 : ℕ → ℤ × ℝ × ℝ := fun _ => (0, 0, 0)

/-- A degenerate caster whose vertices share one 2D position but have distinct
heights; every edge is degenerate in the plane, so no ray hits any edge. -/
def degTri : List Vector3 := [⟨0, 0, 0⟩, ⟨0, 0, 5⟩, ⟨0, 0, 9⟩]

/-- Indeterminate initial values whose edge index `1` lies inside `[0, 3)`. -/
def junkIn : ℕ → ℤ × ℝ × ℝ := fun _ => (1, 0, 0)

/-- Indeterminate initial values whose edge index `-3` lies outside `[0, 3)`. -/
noncomputable def junkOut : ℕ → ℤ × ℝ × ℝ := fun _ => (-3, 1 / 2, 0)

/-- The inner-ring alpha map of line 120, as a function of the interpolated
height: `opacity = 1.0 / (1 + rayHeight[rayIndex] * heightFactor)`. -/
noncomputable def innerRingAlpha (heightFactor h : ℝ) : ℝ :=
  1 / (1 + h * heightFactor)

/-! ### Shared layout lemmas for `createAmbientShadow` -/

/-- On valid input with an opaque caster, `createAmbientShadow` returns the
one-ring mode and the outer ring followed by the inner ring. -/
theorem createAmbientShadow_opaque_eq (vertices : List Vector3) (centroid3d : Vector3)
    (heightFactor geomFactor : ℝ) (rays : ℤ) (junk : ℕ → ℤ × ℝ × ℝ)
    (h3 : 3 ≤ vertices.length) (hhf : 0 < heightFactor) (hr : 0 < rays)
    (hgf : 0 < geomFactor) :
    createAmbientShadow true vertices centroid3d heightFactor geomFactor rays junk =
      (VertexBufferMode.onePolyRingShadow,
        (List.range rays.toNat).map
          (outerVertexAt vertices centroid3d heightFactor geomFactor rays junk) ++
        (List.range rays.toNat).map
          (innerVertexAt vertices centroid3d heightFactor rays junk)) := by
  unfold createAmbientShadow
  rw [if_neg]
  · simp
  · push_neg
    exact ⟨by omega, hhf, hr, hgf⟩

/-- On valid input with a non-opaque caster, `createAmbientShadow` returns the
two-ring mode and the outer, inner and centroid rings. -/
theorem createAmbientShadow_transparent_eq (vertices : List Vector3) (centroid3d : Vector3)
    (heightFactor geomFactor : ℝ) (rays : ℤ) (junk : ℕ → ℤ × ℝ × ℝ)
    (h3 : 3 ≤ vertices.length) (hhf : 0 < heightFactor) (hr : 0 < rays)
    (hgf : 0 < geomFactor) :
    createAmbientShadow false vertices centroid3d heightFactor geomFactor rays junk =
      (VertexBufferMode.twoPolyRingShadow,
        (List.range rays.toNat).map
          (outerVertexAt vertices centroid3d heightFactor geomFactor rays junk) ++
        (List.range rays.toNat).map
          (innerVertexAt vertices centroid3d heightFactor rays junk) ++
        List.replicate rays.toNat (centroidVertex centroid3d heightFactor)) := by
  unfold createAmbientShadow
  rw [if_neg]
  · simp
  · push_neg
    exact ⟨by omega, hhf, hr, hgf⟩

/-! ### C1: output vertex counts -/

/-- C1: for every valid invocation (`vertexCount ≥ 3`, `heightFactor > 0`,
`rayCount > 0`, `geomFactor > 0`), the output buffer is populated with exactly
`2 * N` vertices when the caster is opaque and exactly `3 * N` vertices when it
is not. -/
theorem claim1_output_vertex_count (isCasterOpaque : Bool) (vertices : List Vector3)
    (centroid3d : Vector3) (heightFactor geomFactor : ℝ) (rays : ℤ)
    (junk : ℕ → ℤ × ℝ × ℝ) (h3 : 3 ≤ vertices.length) (hhf : 0 < heightFactor)
    (hr : 0 < rays) (hgf : 0 < geomFactor) :
    (createAmbientShadow isCasterOpaque vertices centroid3d heightFactor geomFactor
        rays junk).2.length =
      cond isCasterOpaque (2 * rays.toNat) (3 * rays.toNat) := by
  cases isCasterOpaque
  · rw [createAmbientShadow_transparent_eq vertices centroid3d heightFactor geomFactor
      rays junk h3 hhf hr hgf]
    simp
    ring
  · rw [createAmbientShadow_opaque_eq vertices centroid3d heightFactor geomFactor
      rays junk h3 hhf hr hgf]
    simp
    ring

/-- Witness for C1 at a concrete valid input. -/
theorem claim1_output_vertex_count_witness :
    (3 ≤ triA.length ∧ (0:ℝ) < 1 ∧ (0:ℤ) < 1) ∧
      (createAmbientShadow true triA centA 1 1 1 junk0).2.length =
        cond true (2 * (1 : ℤ).toNat) (3 * (1 : ℤ).toNat) :=
  ⟨⟨by norm_num [triA], by norm_num, by norm_num⟩,
    claim1_output_vertex_count true triA centA 1 1 1 junk0
      (by norm_num [triA]) (by norm_num) (by norm_num) (by norm_num)⟩

/-! ### C2: invalid inputs -/

/-- C2: whenever `vertexCount < 3`, or `heightFactor ≤ 0`, or `rayCount ≤ 0`,
or `geomFactor ≤ 0`, `createAmbientShadow` returns the default mode
(`onePolyRingShadow`) and writes nothing: the output buffer is empty. -/
theorem claim2_invalid_input_empty (isCasterOpaque : Bool) (vertices : List Vector3)
    (centroid3d : Vector3) (heightFactor geomFactor : ℝ) (rays : ℤ)
    (junk : ℕ → ℤ × ℝ × ℝ)
    (h : vertices.length < 3 ∨ heightFactor ≤ 0 ∨ rays ≤ 0 ∨ geomFactor ≤ 0) :
    createAmbientShadow isCasterOpaque vertices centroid3d heightFactor geomFactor
        rays junk =
      (VertexBufferMode.onePolyRingShadow, []) := by
  unfold createAmbientShadow
  rw [if_pos h]

/-- Witness for C2 at a concrete invalid input (two vertices). -/
theorem claim2_invalid_input_empty_witness :
    ([(⟨0, 0, 0⟩ : Vector3), ⟨1, 0, 0⟩].length < 3 ∨ (1:ℝ) ≤ 0 ∨ (1:ℤ) ≤ 0 ∨ (1:ℝ) ≤ 0) ∧
      createAmbientShadow true [⟨0, 0, 0⟩, ⟨1, 0, 0⟩] centA 1 1 1 junk0 =
        (VertexBufferMode.onePolyRingShadow, []) :=
  ⟨Or.inl (by norm_num),
    claim2_invalid_input_empty true [⟨0, 0, 0⟩, ⟨1, 0, 0⟩] centA 1 1 1 junk0
      (Or.inl (by norm_num))⟩

/-! ### C7: ray directions -/

/-- C7: `calculateRayDirections` produces exactly `N` direction vectors, with
`direction[i] = (sin(2*pi*i/N), cos(2*pi*i/N))` for every `i < N`; every
direction has unit magnitude, and consecutive directions differ in angle by
exactly `2*pi/N` (the next direction is the current one rotated by `2*pi/N`). -/
theorem claim7_ray_directions (rays : ℤ) (i : ℕ) (hr : 0 < rays) (hi : i < rays.toNat) :
    (calculateRayDirections rays).length = rays.toNat ∧
    (calculateRayDirections rays).getD i default = rayDirection rays i ∧
    rayDirection rays i =
      ⟨Real.sin (2 * Real.pi * i / rays), Real.cos (2 * Real.pi * i / rays)⟩ ∧
    (rayDirection rays i).x ^ 2 + (rayDirection rays i).y ^ 2 = 1 ∧
    (rayDirection rays (i + 1)).x =
      (rayDirection rays i).x * Real.cos (2 * Real.pi / rays) +
        (rayDirection rays i).y * Real.sin (2 * Real.pi / rays) ∧
    (rayDirection rays (i + 1)).y =
      (rayDirection rays i).y * Real.cos (2 * Real.pi / rays) -
        (rayDirection rays i).x * Real.sin (2 * Real.pi / rays) := by
  refine ⟨by simp [calculateRayDirections], ?_, ?_, ?_, ?_, ?_⟩
  · simp [calculateRayDirections, List.getD_eq_getElem?_getD, List.getElem?_map,
      List.getElem?_range, hi]
  · have h : 2 * Real.pi / (rays : ℝ) * (i : ℕ) = 2 * Real.pi * i / rays := by ring
    simp [rayDirection, h]
  · simp [rayDirection, Real.sin_sq_add_cos_sq]
  · have h : 2 * Real.pi / (rays : ℝ) * ((i : ℕ) + 1 : ℕ) =
        2 * Real.pi / rays * (i : ℕ) + 2 * Real.pi / rays := by
      push_cast
      ring
    simp only [rayDirection, h, Real.sin_add]
  · have h : 2 * Real.pi / (rays : ℝ) * ((i : ℕ) + 1 : ℕ) =
        2 * Real.pi / rays * (i : ℕ) + 2 * Real.pi / rays := by
      push_cast
      ring
    simp only [rayDirection, h, Real.cos_add]

/-- Witness for C7 at `rays = 1`, `i = 0`, checking the unit-magnitude clause. -/
theorem claim7_ray_directions_witness :
    ((0:ℤ) < 1 ∧ 0 < (1:ℤ).toNat) ∧
      (calculateRayDirections 1).length = (1:ℤ).toNat ∧
      (rayDirection 1 0).x ^ 2 + (rayDirection 1 0).y ^ 2 = 1 :=
  ⟨⟨by norm_num, by norm_num⟩,
    (claim7_ray_directions 1 0 (by norm_num) (by norm_num)).1,
    (claim7_ray_directions 1 0 (by norm_num) (by norm_num)).2.2.2.1⟩

/-! ### C9: the inner-ring alpha law -/

/-- C9: the inner-ring alpha written by the code is `innerRingAlpha`, which,
for `heightFactor > 0`, is non-increasing and strictly decreasing on
nonnegative heights, equals `1` at height `0`, and tends to `0` as the height
grows without bound. -/
theorem claim9_inner_alpha_falloff (heightFactor : ℝ) (hhf : 0 < heightFactor) :
    (∀ vertices centroid3d rays junk i,
        (innerVertexAt vertices centroid3d heightFactor rays junk i).alpha =
          innerRingAlpha heightFactor (rayHeight vertices centroid3d rays junk i)) ∧
    (∀ h1 h2 : ℝ, 0 ≤ h1 → h1 ≤ h2 →
        innerRingAlpha heightFactor h2 ≤ innerRingAlpha heightFactor h1) ∧
    (∀ h1 h2 : ℝ, 0 ≤ h1 → h1 < h2 →
        innerRingAlpha heightFactor h2 < innerRingAlpha heightFactor h1) ∧
    innerRingAlpha heightFactor 0 = 1 ∧
    Filter.Tendsto (fun h : ℝ => innerRingAlpha heightFactor h) Filter.atTop (nhds 0) := by
  refine ⟨fun vertices centroid3d rays junk i => rfl, ?_, ?_, by simp [innerRingAlpha], ?_⟩
  · intro h1 h2 h1n h12
    unfold innerRingAlpha
    apply one_div_le_one_div_of_le (by positivity)
    nlinarith
  · intro h1 h2 h1n h12
    unfold innerRingAlpha
    have hp1 : 0 < 1 + h1 * heightFactor := by positivity
    apply one_div_lt_one_div_of_lt hp1
    nlinarith
  · have h1 : Filter.Tendsto (fun h : ℝ => 1 + h * heightFactor) Filter.atTop
        Filter.atTop := by
      apply Filter.tendsto_atTop_add_const_left
      exact Filter.Tendsto.atTop_mul_const hhf Filter.tendsto_id
    have h2 := h1.inv_tendsto_atTop
    simpa [innerRingAlpha, one_div] using h2

/-- Witness for C9 at `heightFactor = 1`, exercising the strict decrease
between heights `0` and `1`. -/
theorem claim9_inner_alpha_falloff_witness :
    (0:ℝ) < 1 ∧ innerRingAlpha 1 1 < innerRingAlpha 1 0 :=
  ⟨by norm_num,
    (claim9_inner_alpha_falloff 1 (by norm_num)).2.2.1 0 1 (by norm_num) (by norm_num)⟩

/-! ### Shared lemmas about the edge scan -/

/-- If the edge scan returns a result, some scanned edge was accepted with
exactly that result, and every edge scanned before it was rejected. -/
theorem scanHit_some_spec (vertices : List Vector3) (start : Vector3) (d : Vector2)
    (n : ℕ) :
    ∀ fuel k r, scanHit vertices start d n k fuel = some r →
      ∃ m, k ≤ m ∧ m < k + fuel ∧
        edgeHit vertices start d (edgeFrom n m) m = some r ∧
        ∀ j, k ≤ j → j < m → edgeHit vertices start d (edgeFrom n j) j = none := by
  intro fuel
  induction fuel with
  | zero =>
    intro k r h
    simp [scanHit] at h
  | succ fuel ih =>
    intro k r h
    simp only [scanHit] at h
    rcases hh : edgeHit vertices start d (edgeFrom n k) k with _ | r0
    · rw [hh] at h
      obtain ⟨m, hm1, hm2, hm3, hm4⟩ := ih (k + 1) r h
      refine ⟨m, by omega, by omega, hm3, fun j hj1 hj2 => ?_⟩
      rcases eq_or_lt_of_le hj1 with he | hl
      · rw [← he]
        exact hh
      · exact hm4 j hl hj2
    · rw [hh] at h
      simp only [Option.some.injEq] at h
      subst h
      exact ⟨k, le_refl k, by omega, hh, fun j hj1 hj2 => absurd hj1 (by omega)⟩

/-- If every scanned edge is rejected, the edge scan returns nothing. -/
theorem scanHit_eq_none (vertices : List Vector3) (start : Vector3) (d : Vector2)
    (n : ℕ) :
    ∀ fuel k,
      (∀ m, k ≤ m → m < k + fuel → edgeHit vertices start d (edgeFrom n m) m = none) →
      scanHit vertices start d n k fuel = none := by
  intro fuel
  induction fuel with
  | zero =>
    intro k _
    rfl
  | succ fuel ih =>
    intro k h
    simp only [scanHit]
    rw [h k (le_refl k) (by omega)]
    exact ih (k + 1) (fun m h1 h2 => h m (by omega) (by omega))

/-- The loop index following the from-vertex of an edge is the edge's
to-vertex: `(edgeFrom n m + 1) % n = m` for `m < n`. -/
theorem edgeFrom_succ_mod (n m : ℕ) (hm : m < n) : (edgeFrom n m + 1) % n = m := by
  have hn : 0 < n := lt_of_le_of_lt (Nat.zero_le m) hm
  cases m with
  | zero =>
    unfold edgeFrom
    rw [Nat.zero_add, Nat.mod_eq_of_lt (by omega : n - 1 < n), Nat.sub_add_cancel hn,
      Nat.mod_self]
  | succ m =>
    unfold edgeFrom
    have h1 : m + 1 + n - 1 = m + n := by omega
    rw [h1, Nat.add_mod_right, Nat.mod_eq_of_lt (by omega : m < n),
      Nat.mod_eq_of_lt hm]

/-- The from-vertex index produced by the scan is in range. -/
theorem edgeFrom_lt (n m : ℕ) (hm : m < n) : edgeFrom n m < n := by
  have hn : 0 < n := lt_of_le_of_lt (Nat.zero_le m) hm
  exact Nat.mod_lt _ hn

/-- The clamp at lines 78-83 keeps an in-range edge index unchanged. -/
theorem clampedEdge_of_mem (vertexCount : ℕ) (e : ℤ) (h0 : 0 ≤ e)
    (hn : e < (vertexCount : ℤ)) : clampedEdge vertexCount e = e := by
  unfold clampedEdge
  rw [if_neg]
  push_neg
  exact ⟨h0, hn⟩

/-- On acceptance, `edgeHit` reports the from-vertex index together with the
solution `(t, t2)` of the ray/edge linear system, and that solution satisfies
the acceptance tests and the system itself. -/
theorem edgeHit_some_spec (vertices : List Vector3) (start : Vector3) (d : Vector2)
    (p1i p2i : ℕ) (e : ℤ) (t v : ℝ)
    (h : edgeHit vertices start d p1i p2i = some (e, t, v)) :
    e = (p1i : ℤ) ∧
      (let p1 := vertices.getD p1i default
       let p2 := vertices.getD p2i default
       d.x * (p1.y - p2.y) + d.y * p2.x - d.y * p1.x ≠ 0 ∧
       0 < t ∧ t ≤ 1 ∧ 0 < v ∧
       start.x + v * d.x = p1.x + t * (p2.x - p1.x) ∧
       start.y + v * d.y = p1.y + t * (p2.y - p1.y)) := by
  unfold edgeHit at h
  set p1 := vertices.getD p1i default with hp1
  set p2 := vertices.getD p2i default with hp2
  simp only at h
  split_ifs at h with hdiv ht ht2
  · simp only [Option.some.injEq, Prod.mk.injEq] at h
    obtain ⟨he, htv, hvv⟩ := h
    subst he
    subst htv
    subst hvv
    refine ⟨rfl, hdiv, ht.1, ht.2, ht2, ?_, ?_⟩
    · field_simp
      ring
    · have hdiv2 := hdiv
      field_simp
      ring

/-! ### C10: no accepted edge means no write -/

/-- C10: when no polygon edge passes the acceptance test,
`calculateIntersection` leaves all three output parameters at their pre-call
values (its scan finds nothing), and it reports exactly the accepted edge's
values when the scan finds one. -/
theorem claim10_no_hit_no_write (vertices : List Vector3) (start : Vector3)
    (d : Vector2) (outInit : ℤ × ℝ × ℝ)
    (h : ∀ m, m < vertices.length →
      edgeHit vertices start d (edgeFrom vertices.length m) m = none) :
    calculateIntersection vertices start d outInit = outInit ∧
      findHit vertices start d = none ∧
      ∀ r, findHit vertices start d = some r →
        calculateIntersection vertices start d outInit = r := by
  have hnone : findHit vertices start d = none := by
    unfold findHit
    exact scanHit_eq_none vertices start d vertices.length vertices.length 0
      (fun m h1 h2 => h m (by omega))
  refine ⟨?_, hnone, ?_⟩
  · unfold calculateIntersection
    rw [hnone]
    rfl
  · intro r hr
    rw [hr] at hnone
    exact absurd hnone (by simp)

/-- Witness for C10: a caster whose vertices share one 2D position rejects
every edge, and the pre-call values `(7, 1/2, 9)` survive the call. -/
theorem claim10_no_hit_no_write_witness :
    (∀ m, m < degTri.length →
        edgeHit degTri ⟨0, 0, 0⟩ ⟨0, 1⟩ (edgeFrom degTri.length m) m = none) ∧
      calculateIntersection degTri ⟨0, 0, 0⟩ ⟨0, 1⟩ (7, 1 / 2, 9) = (7, 1 / 2, 9) := by
  have h : ∀ m, m < degTri.length →
      edgeHit degTri ⟨0, 0, 0⟩ ⟨0, 1⟩ (edgeFrom degTri.length m) m = none := by
    intro m hm
    simp only [degTri, List.length_cons, List.length_nil] at hm
    interval_cases m <;>
      norm_num [edgeHit, edgeFrom, degTri]
  exact ⟨h, (claim10_no_hit_no_write degTri ⟨0, 0, 0⟩ ⟨0, 1⟩ (7, 1 / 2, 9) h).1⟩

/-! ### C3: the intersection contract -/

/-- C3: when the edge scan of `calculateIntersection` reports `(e, t, v)`, the
edges were tried starting from the last-to-first edge and then consecutive
pairs; `e` is the from-vertex index of the first edge passing the acceptance
test (non-degenerate determinant, `t` in `(0, 1]`, `v > 0`), the to-vertex is
the next vertex modulo `vertexCount`, `(t, v)` solve
`start + v * dir = p1 + t * (p2 - p1)`, and the interpolated height stored by
`createAmbientShadow` for such a ray is `p1.z + t * (p2.z - p1.z)`. -/
theorem claim3_intersection_contract (vertices : List Vector3) (start : Vector3)
    (d : Vector2) (e : ℤ) (t v : ℝ)
    (hhit : findHit vertices start d = some (e, t, v)) :
    ∃ k, k < vertices.length ∧
      e = ((edgeFrom vertices.length k : ℕ) : ℤ) ∧
      (e.toNat + 1) % vertices.length = k ∧
      (∀ j, j < k → edgeHit vertices start d (edgeFrom vertices.length j) j = none) ∧
      edgeHit vertices start d (edgeFrom vertices.length k) k = some (e, t, v) ∧
      (let p1 := vertices.getD e.toNat default
       let p2 := vertices.getD ((e.toNat + 1) % vertices.length) default
       d.x * (p1.y - p2.y) + d.y * p2.x - d.y * p1.x ≠ 0 ∧
       0 < t ∧ t ≤ 1 ∧ 0 < v ∧
       start.x + v * d.x = p1.x + t * (p2.x - p1.x) ∧
       start.y + v * d.y = p1.y + t * (p2.y - p1.y) ∧
       ∀ rays junk i, rayDirection rays i = d →
         rayHeight vertices start rays junk i = p1.z + t * (p2.z - p1.z)) := by
  unfold findHit at hhit
  obtain ⟨m, _, hm2, hm3, hm4⟩ :=
    scanHit_some_spec vertices start d vertices.length vertices.length 0 (e, t, v) hhit
  have hmlt : m < vertices.length := by omega
  obtain ⟨he, hrest⟩ :=
    edgeHit_some_spec vertices start d (edgeFrom vertices.length m) m e t v hm3
  have hent : e.toNat = edgeFrom vertices.length m := by
    rw [he]
    exact Int.toNat_natCast _
  have he0 : 0 ≤ e := by
    rw [he]
    exact Int.natCast_nonneg _
  have helt : e < (vertices.length : ℤ) := by
    rw [he]
    exact_mod_cast edgeFrom_lt vertices.length m hmlt
  have hesucc : (e.toNat + 1) % vertices.length = m := by
    rw [hent]
    exact edgeFrom_succ_mod vertices.length m hmlt
  have hesucc2 : (edgeFrom vertices.length m + 1) % vertices.length = m :=
    edgeFrom_succ_mod vertices.length m hmlt
  refine ⟨m, hmlt, he, hesucc, fun j hj => hm4 j (by omega) hj, hm3, ?_⟩
  obtain ⟨hdiv, ht0, ht1, hv, hx, hy⟩ := hrest
  simp only [hent, hesucc2]
  refine ⟨hdiv, ht0, ht1, hv, hx, hy, ?_⟩
  intro rays junk i hdir
  have hray : rayHit vertices start rays junk i = (e, t, v) := by
    unfold rayHit calculateIntersection findHit
    rw [hdir, hhit]
    rfl
  have hraw : rayEdgeRaw vertices start rays junk i = e := by
    unfold rayEdgeRaw
    rw [hray]
  have hfrac : rayFraction vertices start rays junk i = t := by
    unfold rayFraction
    rw [hray]
  have hcl : clampedEdge vertices.length e = e := clampedEdge_of_mem _ _ he0 helt
  simp only [rayHeight, hraw, hfrac, hcl, hent, hesucc2]

/-- Witness for C3 at the triangle `triA`: the upward ray from the centroid is
accepted at the edge from vertex 1 with fraction 1 and distance 1. -/
theorem claim3_intersection_contract_witness :
    findHit triA centA ⟨0, 1⟩ = some (1, 1, 1) ∧
      ∃ k, k < triA.length ∧ (1 : ℤ) = ((edgeFrom triA.length k : ℕ) : ℤ) := by
  have hhit : findHit triA centA ⟨0, 1⟩ = some (1, 1, 1) := by
    norm_num [findHit, scanHit, edgeHit, edgeFrom, triA, centA]
  obtain ⟨k, hk1, hk2, _⟩ := claim3_intersection_contract triA centA ⟨0, 1⟩ 1 1 1 hhit
  exact ⟨hhit, k, hk1, hk2⟩

/-! ### C8: rays with no accepted edge -/

/-- The first ray direction for `rays = 1` points straight up. -/
theorem rayDirection_one_zero : rayDirection 1 0 = ⟨0, 1⟩ := by
  simp [rayDirection]

/-- Every edge of the degenerate caster `degTri` is rejected for the upward
ray from the origin. -/
theorem degTri_no_hit (m : ℕ) (hm : m < degTri.length) :
    edgeHit degTri ⟨0, 0, 0⟩ ⟨0, 1⟩ (edgeFrom degTri.length m) m = none := by
  simp only [degTri, List.length_cons, List.length_nil] at hm
  interval_cases m <;> norm_num [edgeHit, edgeFrom, degTri]

/-- Counterexample to C8: a valid invocation (`degTri`, `heightFactor = 1`,
`rays = 1`, `geomFactor = 1`) in which ray 0 has no accepted edge, yet when the
indeterminate pre-call edge index is `1` (in range, with stale fraction `0`),
the interpolated height is computed from edge 1 (giving `5`), not from edge 0
(which would give `0`). -/
theorem claim8_counterexample :
    (3 ≤ degTri.length ∧ (0:ℝ) < 1 ∧ (0:ℤ) < 1) ∧
      (∀ m, m < degTri.length →
        edgeHit degTri ⟨0, 0, 0⟩ (rayDirection 1 0) (edgeFrom degTri.length m) m = none) ∧
      rayHeight degTri ⟨0, 0, 0⟩ 1 junkIn 0 = 5 ∧
      (degTri.getD 0 default).z + (junkIn 0).2.1 *
        ((degTri.getD 1 default).z - (degTri.getD 0 default).z) = 0 ∧
      (5 : ℝ) ≠ 0 := by
  have hnone : ∀ m, m < degTri.length →
      edgeHit degTri ⟨0, 0, 0⟩ (rayDirection 1 0) (edgeFrom degTri.length m) m = none := by
    intro m hm
    rw [rayDirection_one_zero]
    exact degTri_no_hit m hm
  have hfind : findHit degTri ⟨0, 0, 0⟩ (rayDirection 1 0) = none := by
    unfold findHit
    exact scanHit_eq_none _ _ _ _ degTri.length 0 (fun m h1 h2 => hnone m (by omega))
  have hray : rayHit degTri ⟨0, 0, 0⟩ 1 junkIn 0 = (1, 0, 0) := by
    unfold rayHit calculateIntersection
    rw [hfind]
    rfl
  have hraw : rayEdgeRaw degTri ⟨0, 0, 0⟩ 1 junkIn 0 = 1 := by
    unfold rayEdgeRaw
    rw [hray]
  have hfrac : rayFraction degTri ⟨0, 0, 0⟩ 1 junkIn 0 = 0 := by
    unfold rayFraction
    rw [hray]
  refine ⟨⟨by norm_num [degTri], by norm_num, by norm_num⟩, hnone, ?_, by norm_num [degTri, junkIn], by norm_num⟩
  simp only [rayHeight, hraw, hfrac]
  norm_num [clampedEdge, degTri]

/-- C8 amended: on a ray with no accepted edge the three outputs keep their
indeterminate pre-call values; the edge index used for the interpolated height
is the stale value itself when it lies in `[0, vertexCount)` and `0` (the
fallback the claim describes) only when it is out of range; in either case the
invocation still produces its full `2N`/`3N` output without crashing. -/
theorem claim8_no_hit_fallback (isCasterOpaque : Bool) (vertices : List Vector3)
    (centroid3d : Vector3) (heightFactor geomFactor : ℝ) (rays : ℤ)
    (junk : ℕ → ℤ × ℝ × ℝ) (i : ℕ)
    (h3 : 3 ≤ vertices.length) (hhf : 0 < heightFactor) (hr : 0 < rays)
    (hgf : 0 < geomFactor)
    (hnone : ∀ m, m < vertices.length →
      edgeHit vertices centroid3d (rayDirection rays i) (edgeFrom vertices.length m) m = none) :
    rayHit vertices centroid3d rays junk i = junk i ∧
      (((junk i).1 < 0 ∨ (vertices.length : ℤ) ≤ (junk i).1) →
        rayHeight vertices centroid3d rays junk i =
          (vertices.getD 0 default).z + (junk i).2.1 *
            ((vertices.getD 1 default).z - (vertices.getD 0 default).z)) ∧
      ((0 ≤ (junk i).1 ∧ (junk i).1 < (vertices.length : ℤ)) →
        rayHeight vertices centroid3d rays junk i =
          (vertices.getD (junk i).1.toNat default).z + (junk i).2.1 *
            ((vertices.getD (((junk i).1.toNat + 1) % vertices.length) default).z -
              (vertices.getD (junk i).1.toNat default).z)) ∧
      (createAmbientShadow isCasterOpaque vertices centroid3d heightFactor geomFactor
          rays junk).2.length =
        cond isCasterOpaque (2 * rays.toNat) (3 * rays.toNat) := by
  have hfind : findHit vertices centroid3d (rayDirection rays i) = none := by
    unfold findHit
    exact scanHit_eq_none _ _ _ _ vertices.length 0 (fun m h1 h2 => hnone m (by omega))
  have hray : rayHit vertices centroid3d rays junk i = junk i := by
    unfold rayHit calculateIntersection
    rw [hfind]
    rfl
  have hraw : rayEdgeRaw vertices centroid3d rays junk i = (junk i).1 := by
    unfold rayEdgeRaw
    rw [hray]
  have hfrac : rayFraction vertices centroid3d rays junk i = (junk i).2.1 := by
    unfold rayFraction
    rw [hray]
  refine ⟨hray, ?_, ?_, ?_⟩
  · intro hout
    have hcl : clampedEdge vertices.length (junk i).1 = 0 := by
      unfold clampedEdge
      rw [if_pos hout]
    have h1n : 1 % vertices.length = 1 := Nat.mod_eq_of_lt (by omega)
    simp only [rayHeight, hraw, hfrac, hcl, Int.toNat_zero, Nat.zero_add, h1n]
  · intro hin
    have hcl : clampedEdge vertices.length (junk i).1 = (junk i).1 :=
      clampedEdge_of_mem _ _ hin.1 hin.2
    simp only [rayHeight, hraw, hfrac, hcl]
  · cases isCasterOpaque
    · rw [createAmbientShadow_transparent_eq vertices centroid3d heightFactor geomFactor
        rays junk h3 hhf hr hgf]
      simp
      ring
    · rw [createAmbientShadow_opaque_eq vertices centroid3d heightFactor geomFactor
        rays junk h3 hhf hr hgf]
      simp
      ring

/-- Witness for the amended C8 at `degTri` with stale values `(-3, 1/2, 0)`:
the out-of-range stale edge index falls back to edge 0 and the stale fraction
`1/2` interpolates between the heights of vertices 0 and 1. -/
theorem claim8_no_hit_fallback_witness :
    ((3 ≤ degTri.length ∧ (0:ℝ) < 1 ∧ (0:ℤ) < 1) ∧
        ((junkOut 0).1 < 0 ∨ (degTri.length : ℤ) ≤ (junkOut 0).1)) ∧
      rayHeight degTri ⟨0, 0, 0⟩ 1 junkOut 0 =
        (degTri.getD 0 default).z + (junkOut 0).2.1 *
          ((degTri.getD 1 default).z - (degTri.getD 0 default).z) := by
  have hnone : ∀ m, m < degTri.length →
      edgeHit degTri ⟨0, 0, 0⟩ (rayDirection 1 0) (edgeFrom degTri.length m) m = none := by
    intro m hm
    rw [rayDirection_one_zero]
    exact degTri_no_hit m hm
  have h := claim8_no_hit_fallback true degTri ⟨0, 0, 0⟩ 1 1 1 junkOut 0
    (by norm_num [degTri]) (by norm_num) (by norm_num) (by norm_num) hnone
  exact ⟨⟨⟨by norm_num [degTri], by norm_num, by norm_num⟩,
      Or.inl (by norm_num [junkOut])⟩,
    h.2.1 (Or.inl (by norm_num [junkOut]))⟩

/-! ### Shared indexing lemmas for the output buffer -/

/-- Indexing a mapped range at an in-range position. -/
theorem getD_map_range {α : Type} (f : ℕ → α) {n i : ℕ} (hi : i < n) (d : α) :
    ((List.range n).map f).getD i d = f i := by
  simp [List.getD_eq_getElem?_getD, List.getElem?_map, List.getElem?_range, hi]

/-- Indexing an append inside its left part. -/
theorem getD_append_left {α : Type} (l1 l2 : List α) (i : ℕ) (hi : i < l1.length)
    (d : α) : (l1 ++ l2).getD i d = l1.getD i d := by
  simp [List.getD_eq_getElem?_getD, List.getElem?_append, hi]

/-- Indexing an append inside its right part, by offset from the left length. -/
theorem getD_append_right_off {α : Type} (l1 l2 : List α) (i : ℕ) (d : α) :
    (l1 ++ l2).getD (l1.length + i) d = l2.getD i d := by
  simp [List.getD_eq_getElem?_getD, List.getElem?_append]

/-- Indexing an append inside its right part, with the left length by value. -/
theorem getD_append_pair_right {α : Type} (l1 l2 : List α) (i n : ℕ)
    (h1 : l1.length = n) (d : α) : (l1 ++ l2).getD (n + i) d = l2.getD i d := by
  rw [← h1]
  exact getD_append_right_off l1 l2 i d

/-- Indexing the middle part of a two-part append followed by a rest. -/
theorem getD_append2_mid {α : Type} (l1 l2 rest : List α) (i n : ℕ)
    (h1 : l1.length = n) (h2 : l2.length = n) (hi : i < n) (d : α) :
    ((l1 ++ l2) ++ rest).getD (n + i) d = l2.getD i d := by
  rw [getD_append_left _ _ _ (by rw [List.length_append, h1, h2]; omega)]
  exact getD_append_pair_right l1 l2 i n h1 d

/-- Indexing the last part of a two-part append followed by a rest. -/
theorem getD_append2_last {α : Type} (l1 l2 rest : List α) (i n : ℕ)
    (h1 : l1.length = n) (h2 : l2.length = n) (d : α) :
    ((l1 ++ l2) ++ rest).getD (2 * n + i) d = rest.getD i d := by
  have hidx : 2 * n + i = (l1 ++ l2).length + i := by
    rw [List.length_append, h1, h2]
    omega
  rw [hidx]
  exact getD_append_right_off (l1 ++ l2) rest i d

/-- Indexing a replicated list at an in-range position. -/
theorem getD_replicate_of_lt {α : Type} {n i : ℕ} (hi : i < n) (a d : α) :
    (List.replicate n a).getD i d = a := by
  simp [List.getD_eq_getElem?_getD, List.getElem?_replicate, hi]

/-! ### C4: the outer and inner ring formulas -/

/-- C4: on a valid invocation, the buffer entry at index `i < N` is the
intersection point pushed along the normal by
`rayHeight * heightFactor * geomFactor` with alpha exactly `0`, and the entry
at index `N + i` is the unmodified intersection point with alpha
`1 / (1 + rayHeight * heightFactor)`. -/
theorem claim4_ring_vertex_formulas (isCasterOpaque : Bool) (vertices : List Vector3)
    (centroid3d : Vector3) (heightFactor geomFactor : ℝ) (rays : ℤ)
    (junk : ℕ → ℤ × ℝ × ℝ) (i : ℕ) (h3 : 3 ≤ vertices.length)
    (hhf : 0 < heightFactor) (hr : 0 < rays) (hgf : 0 < geomFactor)
    (hi : i < rays.toNat) :
    (createAmbientShadow isCasterOpaque vertices centroid3d heightFactor geomFactor
        rays junk).2.getD i default =
      ⟨(intersectionAt vertices centroid3d rays junk i).x +
          (normalAt vertices centroid3d rays junk i).x *
            (rayHeight vertices centroid3d rays junk i * heightFactor * geomFactor),
        (intersectionAt vertices centroid3d rays junk i).y +
          (normalAt vertices centroid3d rays junk i).y *
            (rayHeight vertices centroid3d rays junk i * heightFactor * geomFactor),
        0⟩ ∧
    (createAmbientShadow isCasterOpaque vertices centroid3d heightFactor geomFactor
        rays junk).2.getD (rays.toNat + i) default =
      ⟨(intersectionAt vertices centroid3d rays junk i).x,
        (intersectionAt vertices centroid3d rays junk i).y,
        1 / (1 + rayHeight vertices centroid3d rays junk i * heightFactor)⟩ := by
  have hlo : ((List.range rays.toNat).map
      (outerVertexAt vertices centroid3d heightFactor geomFactor rays junk)).length =
      rays.toNat := by simp
  have hli : ((List.range rays.toNat).map
      (innerVertexAt vertices centroid3d heightFactor rays junk)).length =
      rays.toNat := by simp
  cases isCasterOpaque
  · rw [createAmbientShadow_transparent_eq vertices centroid3d heightFactor geomFactor
      rays junk h3 hhf hr hgf]
    constructor
    · rw [getD_append_left _ _ i (by rw [List.length_append, hlo, hli]; omega),
        getD_append_left _ _ i (by rw [hlo]; omega), getD_map_range _ hi]
      rfl
    · rw [getD_append2_mid _ _ _ i rays.toNat hlo hli hi, getD_map_range _ hi]
      rfl
  · rw [createAmbientShadow_opaque_eq vertices centroid3d heightFactor geomFactor
      rays junk h3 hhf hr hgf]
    constructor
    · rw [getD_append_left _ _ i (by rw [hlo]; omega), getD_map_range _ hi]
      rfl
    · rw [getD_append_pair_right _ _ i rays.toNat hlo, getD_map_range _ hi]
      rfl

/-- Witness for C4 at the triangle `triA` with one ray. -/
theorem claim4_ring_vertex_formulas_witness :
    (3 ≤ triA.length ∧ (0:ℝ) < 1 ∧ (0:ℤ) < 1 ∧ 0 < (1:ℤ).toNat) ∧
      (createAmbientShadow true triA centA 1 1 1 junk0).2.getD ((1:ℤ).toNat + 0)
          default =
        ⟨(intersectionAt triA centA 1 junk0 0).x,
          (intersectionAt triA centA 1 junk0 0).y,
          1 / (1 + rayHeight triA centA 1 junk0 0 * 1)⟩ :=
  ⟨⟨by norm_num [triA], by norm_num, by norm_num, by norm_num⟩,
    (claim4_ring_vertex_formulas true triA centA 1 1 1 junk0 0
      (by norm_num [triA]) (by norm_num) (by norm_num) (by norm_num) (by norm_num)).2⟩

/-! ### C5: the centroid ring and the topology mode -/

/-- C5: on a valid invocation with a non-opaque caster the mode is
`twoPolyRingShadow` and every third-ring entry equals the centroid's 2D
position with alpha `1 / (1 + centroid.z * heightFactor)` (so the third ring
is pairwise identical); with an opaque caster the mode stays
`onePolyRingShadow`. -/
theorem claim5_centroid_ring (vertices : List Vector3) (centroid3d : Vector3)
    (heightFactor geomFactor : ℝ) (rays : ℤ) (junk : ℕ → ℤ × ℝ × ℝ)
    (h3 : 3 ≤ vertices.length) (hhf : 0 < heightFactor) (hr : 0 < rays)
    (hgf : 0 < geomFactor) :
    (createAmbientShadow false vertices centroid3d heightFactor geomFactor
        rays junk).1 = VertexBufferMode.twoPolyRingShadow ∧
      (∀ i, i < rays.toNat →
        (createAmbientShadow false vertices centroid3d heightFactor geomFactor
            rays junk).2.getD (2 * rays.toNat + i) default =
          ⟨centroid3d.x, centroid3d.y, 1 / (1 + centroid3d.z * heightFactor)⟩) ∧
      (∀ i j, i < rays.toNat → j < rays.toNat →
        (createAmbientShadow false vertices centroid3d heightFactor geomFactor
            rays junk).2.getD (2 * rays.toNat + i) default =
          (createAmbientShadow false vertices centroid3d heightFactor geomFactor
              rays junk).2.getD (2 * rays.toNat + j) default) ∧
      (createAmbientShadow true vertices centroid3d heightFactor geomFactor
          rays junk).1 = VertexBufferMode.onePolyRingShadow := by
  have hlo : ((List.range rays.toNat).map
      (outerVertexAt vertices centroid3d heightFactor geomFactor rays junk)).length =
      rays.toNat := by simp
  have hli : ((List.range rays.toNat).map
      (innerVertexAt vertices centroid3d heightFactor rays junk)).length =
      rays.toNat := by simp
  have hcent : ∀ i, i < rays.toNat →
      (createAmbientShadow false vertices centroid3d heightFactor geomFactor
          rays junk).2.getD (2 * rays.toNat + i) default =
        ⟨centroid3d.x, centroid3d.y, 1 / (1 + centroid3d.z * heightFactor)⟩ := by
    intro i hi
    rw [createAmbientShadow_transparent_eq vertices centroid3d heightFactor geomFactor
      rays junk h3 hhf hr hgf]
    rw [getD_append2_last _ _ _ i rays.toNat hlo hli, getD_replicate_of_lt hi]
    rfl
  refine ⟨?_, hcent, fun i j hi hj => by rw [hcent i hi, hcent j hj], ?_⟩
  · rw [createAmbientShadow_transparent_eq vertices centroid3d heightFactor geomFactor
      rays junk h3 hhf hr hgf]
  · rw [createAmbientShadow_opaque_eq vertices centroid3d heightFactor geomFactor
      rays junk h3 hhf hr hgf]

/-- Witness for C5 at the triangle `triA` with one ray. -/
theorem claim5_centroid_ring_witness :
    (3 ≤ triA.length ∧ (0:ℝ) < 1 ∧ (0:ℤ) < 1) ∧
      (createAmbientShadow false triA centA 1 1 1 junk0).1 =
        VertexBufferMode.twoPolyRingShadow ∧
      (createAmbientShadow false triA centA 1 1 1 junk0).2.getD
          (2 * (1:ℤ).toNat + 0) default =
        ⟨centA.x, centA.y, 1 / (1 + centA.z * 1)⟩ := by
  have h := claim5_centroid_ring triA centA 1 1 1 junk0
    (by norm_num [triA]) (by norm_num) (by norm_num) (by norm_num)
  exact ⟨⟨by norm_num [triA], by norm_num, by norm_num⟩, h.1, h.2.1 0 (by norm_num)⟩

/-! ### C6: the normal estimate -/

/-- C6: for ray `i` with `0 ≤ i < N`, `calculateNormal` reads the intersection
points of the angular neighbours `(i - 1) mod N` and `(i + 1) mod N`, and if
their chord has non-zero length returns the 90-degree counter-clockwise
rotation `(x, y) -> (-y, x)` of the normalized chord; if the chord has zero
length it returns the caller-supplied `normal0` unchanged, while inner-ring
vertices always keep the intersection-point position regardless of the
normal. -/
theorem claim6_normal_estimation (rays currentRayIndex : ℤ) (dir : List Vector2)
    (rayDistArr : List ℝ) (normal0 : Vector2) (hr : 0 < rays)
    (h0 : 0 ≤ currentRayIndex) (hi : currentRayIndex < rays) :
    (let pre := ((currentRayIndex - 1 + rays) % rays).toNat
     let post := ((currentRayIndex + 1) % rays).toNat
     let p1x := (dir.getD pre default).x * rayDistArr.getD pre 0
     let p1y := (dir.getD pre default).y * rayDistArr.getD pre 0
     let p2x := (dir.getD post default).x * rayDistArr.getD post 0
     let p2y := (dir.getD post default).y * rayDistArr.getD post 0
     let len := Vector2.length ⟨p2x - p1x, p2y - p1y⟩
     ((pre : ℤ) = (currentRayIndex - 1) % rays ∧
        (post : ℤ) = (currentRayIndex + 1) % rays) ∧
       (len ≠ 0 →
         calculateNormal rays currentRayIndex dir rayDistArr normal0 =
           ⟨-((p2y - p1y) / len), (p2x - p1x) / len⟩) ∧
       (len = 0 →
         calculateNormal rays currentRayIndex dir rayDistArr normal0 = normal0)) ∧
    (∀ vertices centroid3d heightFactor junk j,
        (innerVertexAt vertices centroid3d heightFactor rays junk j).x =
          (intersectionAt vertices centroid3d rays junk j).x ∧
        (innerVertexAt vertices centroid3d heightFactor rays junk j).y =
          (intersectionAt vertices centroid3d rays junk j).y) := by
  refine ⟨⟨⟨?_, ?_⟩, ?_, ?_⟩, fun vertices centroid3d heightFactor junk j => ⟨rfl, rfl⟩⟩
  · have hmod : (currentRayIndex - 1 + rays) % rays = (currentRayIndex - 1) % rays := by
      simp [Int.add_emod]
    rw [hmod]
    exact Int.toNat_of_nonneg (Int.emod_nonneg _ (by omega))
  · exact Int.toNat_of_nonneg (Int.emod_nonneg _ (by omega))
  · intro hlen
    simp only [calculateNormal]
    rw [if_pos hlen]
  · intro hlen
    simp only [calculateNormal]
    rw [if_neg (not_not_intro hlen)]

/-- Witness for C6 at `rays = 1`: both neighbours are ray 0 itself, the chord
is degenerate, and the caller-supplied normal `(5, 7)` survives. -/
theorem claim6_normal_estimation_witness :
    ((0:ℤ) < 1 ∧ (0:ℤ) ≤ 0 ∧ (0:ℤ) < 1) ∧
      calculateNormal 1 0 [⟨0, 1⟩] [1] ⟨5, 7⟩ = ⟨5, 7⟩ := by
  have h := claim6_normal_estimation 1 0 [⟨0, 1⟩] [1] ⟨5, 7⟩
    (by norm_num) (by norm_num) (by norm_num)
  refine ⟨⟨by norm_num, by norm_num, by norm_num⟩, h.1.2.2 ?_⟩
  norm_num [Vector2.length]

end AmbientShadow
